import Mathlib

/-!
# Verification of the ytplay playlist synchronization engine

Shallow embedding of the core of the `ytplay` repository
(`main.py` and `src/core/youtube_api.py`) together with proofs of the
specification claims about it.

Remote interaction is modelled by explicit outcome oracles: each remote call
consumes a scripted outcome (a page of items, a response, or a failure), so
every function of the source becomes a pure Lean function of its inputs plus
the script of remote outcomes.  Python exceptions that the source catches
(`HttpError`) are modelled by the `none`/failure branch of the corresponding
oracle; machine integers do not overflow in the source's ranges, so numbers
are `Nat`/`Int`.
-/

/-! ## Data model

Mirrors the `TypedDict` declarations in `main.py` (`PlaylistItemSnippet`,
`PlaylistItem`, `EnhancedVideo`).  Only the fields the core reads are kept;
`resourceVideoId` is `snippet.resourceId.videoId` flattened one level. -/

structure Snippet where
  publishedAt : String
  title : String
  channelTitle : String
  videoOwnerChannelTitle : Option String
  position : Nat
  resourceVideoId : String
deriving DecidableEq, Repr

structure PlaylistItem where
  id : String
  snippet : Snippet
deriving DecidableEq, Repr

structure EnhancedVideo where
  id : String
  snippet : Snippet
  video_id : String
  duration : String
deriving DecidableEq, Repr

/-! ## Duration codec: `parse_duration` (main.py lines 196-215)

The source matches the regex `PT(?:(\d+)H)?(?:(\d+)M)?(?:(\d+)S)?` with
`re.match` (anchored at the start, trailing characters ignored) and formats
the captured groups.  Each optional group `(\d+)X` matches exactly when the
maximal digit run at the current position is nonempty and is immediately
followed by the letter `X`; otherwise it consumes nothing.  ASCII digits are
modelled (the source's `\d`/`int` also accept other Unicode decimal digits,
which the remote never produces). -/

def digitsToNat (ds : List Char) : Nat :=
  ds.foldl (fun a c => a * 10 + (c.toNat - 48)) 0

/-- One optional regex group `(?:(\d+)X)?` at the head of `cs`: returns the
captured number and the rest, or `none` with `cs` unconsumed. -/
def matchGroup (letter : Char) (cs : List Char) : Option Nat × List Char :=
  let ds := cs.takeWhile Char.isDigit
  match cs.dropWhile Char.isDigit with
  | c :: rest2 =>
    if ds ≠ [] ∧ c = letter then (some (digitsToNat ds), rest2) else (none, cs)
  | [] => (none, cs)

/-- Python `f"{n:02d}"`: decimal, left-padded with `0` to width 2. -/
def pad2 (n : Nat) : String :=
  if n < 10 then "0" ++ toString n else toString n

/-- The compact display form of spec §4.2: `H:MM:SS` when hours > 0,
else `M:SS`; identical to the f-strings of the source. -/
def compactDisplay (hours minutes seconds : Nat) : String :=
  if hours > 0 then
    toString hours ++ ":" ++ pad2 minutes ++ ":" ++ pad2 seconds
  else
    toString minutes ++ ":" ++ pad2 seconds

/-- `parse_duration` of main.py: the regex match fails exactly when the token
does not start with `PT`, in which case the token is returned unchanged. -/
def parse_duration (duration : String) : String :=
  match duration.data with
  | 'P' :: 'T' :: rest =>
    let g1 := matchGroup 'H' rest
    let g2 := matchGroup 'M' g1.2
    let g3 := matchGroup 'S' g2.2
    compactDisplay (g1.1.getD 0) (g2.1.getD 0) (g3.1.getD 0)
  | _ => duration

/-- Whether the source's regex matches the token (it requires only the
literal prefix `PT`; all three groups are optional). -/
def durationParseable (s : String) : Bool :=
  match s.data with
  | 'P' :: 'T' :: _ => true
  | _ => false

/-- The three captured groups (defaulted to 0 as the source does). -/
def durationGroups (s : String) : Nat × Nat × Nat :=
  match s.data with
  | 'P' :: 'T' :: rest =>
    let g1 := matchGroup 'H' rest
    let g2 := matchGroup 'M' g1.2
    let g3 := matchGroup 'S' g2.2
    (g1.1.getD 0, g2.1.getD 0, g3.1.getD 0)
  | _ => (0, 0, 0)

/-! ## Duration string to seconds: `duration_to_seconds` (main.py lines 245-256)

Python `int(str)` is modelled on ASCII digits with an optional sign
(whitespace and underscore separators, which the duration strings never
contain, are out of modelled scope); a failing `int` raises `ValueError`,
which the source catches and turns into 0. -/

def pyIntOpt (s : String) : Option Int :=
  match s.data with
  | '-' :: ds => if ds ≠ [] ∧ ds.all Char.isDigit then some (-(digitsToNat ds : Int)) else none
  | '+' :: ds => if ds ≠ [] ∧ ds.all Char.isDigit then some ((digitsToNat ds : Int)) else none
  | ds => if ds ≠ [] ∧ ds.all Char.isDigit then some ((digitsToNat ds : Int)) else none

def duration_to_seconds (s : String) : Int :=
  match s.splitOn ":" with
  | [p0, p1] =>
    match pyIntOpt p0, pyIntOpt p1 with
    | some a, some b => a * 60 + b
    | _, _ => 0
  | [p0, p1, p2] =>
    match pyIntOpt p0, pyIntOpt p1, pyIntOpt p2 with
    | some a, some b, some c => a * 3600 + b * 60 + c
    | _, _, _ => 0
  | _ => 0

/-! ## Publish-date key: `get_publish_date` (main.py lines 268-275)

The source runs `datetime.fromisoformat(date_str.replace("Z", "+00:00"))`
and falls back to `datetime.min.replace(tzinfo=UTC)` on failure.  The model
parses the aware ISO form `YYYY-MM-DDTHH:MM:SS[.ffffff][+-HH:MM]` (the only
shape the remote produces after the `Z` replacement; naive datetimes, which
would make Python's comparison raise, are out of modelled scope and mapped
to the fallback) and ranks it by its UTC instant in microseconds, using the
standard civil-from-days calendar arithmetic so that offset subtraction is
exact. -/

def replaceZ (s : String) : String :=
  ⟨s.data.foldr
    (fun c acc => if c = 'Z' then '+' :: '0' :: '0' :: ':' :: '0' :: '0' :: acc else c :: acc)
    []⟩

def parseNDigitsAux : Nat → Nat → List Char → Option (Nat × List Char)
  | 0, acc, cs => some (acc, cs)
  | n + 1, acc, c :: cs =>
    if c.isDigit then parseNDigitsAux n (acc * 10 + (c.toNat - 48)) cs else none
  | _ + 1, _, [] => none

def parseNDigits (n : Nat) (cs : List Char) : Option (Nat × List Char) :=
  parseNDigitsAux n 0 cs

def expectChar (c : Char) : List Char → Option (List Char)
  | x :: xs => if x = c then some xs else none
  | [] => none

def isLeapYear (y : Nat) : Bool :=
  y % 4 = 0 ∧ (y % 100 ≠ 0 ∨ y % 400 = 0)

def daysInMonth (y m : Nat) : Nat :=
  if m = 2 then (if isLeapYear y then 29 else 28)
  else if m = 4 ∨ m = 6 ∨ m = 9 ∨ m = 11 then 30
  else 31

/-- Days since 1970-01-01 of a proleptic-Gregorian civil date. -/
def daysFromCivil (y m d : Nat) : Int :=
  let yy : Int := (y : Int) - (if m ≤ 2 then 1 else 0)
  let era : Int := yy.fdiv 400
  let yoe : Int := yy - era * 400
  let mp : Int := ((m : Int) + 9) % 12
  let doy : Int := (153 * mp + 2).fdiv 5 + (d : Int) - 1
  let doe : Int := yoe * 365 + yoe.fdiv 4 - yoe.fdiv 100 + doy
  era * 146097 + doe - 719468

/-- UTC instant in microseconds since the epoch. -/
def isoRank (y mo d h mi s us : Nat) (offSeconds : Int) : Int :=
  ((daysFromCivil y mo d) * 86400 + (h : Int) * 3600 + (mi : Int) * 60 + (s : Int)) * 1000000
    + (us : Int) - offSeconds * 1000000

/-- Fractional seconds `.d{1,6}` scaled to microseconds; absent fraction is 0. -/
def parseFraction (cs : List Char) : Nat × List Char :=
  match cs with
  | '.' :: rest =>
    let ds := rest.takeWhile Char.isDigit
    if ds ≠ [] ∧ ds.length ≤ 6 then
      (digitsToNat ds * 10 ^ (6 - ds.length), rest.dropWhile Char.isDigit)
    else (0, cs)
  | _ => (0, cs)

def parseOffset (cs : List Char) : Option Int :=
  match cs with
  | sign :: rest =>
    if sign = '+' ∨ sign = '-' then
      match parseNDigits 2 rest with
      | some (oh, r1) =>
        match expectChar ':' r1 with
        | some r2 =>
          match parseNDigits 2 r2 with
          | some (om, []) =>
            if oh ≤ 23 ∧ om ≤ 59 then
              some ((if sign = '-' then -1 else 1) * ((oh : Int) * 3600 + (om : Int) * 60))
            else none
          | _ => none
        | none => none
      | none => none
    else none
  | [] => none

def parseIsoRank (s : String) : Option Int :=
  match parseNDigits 4 s.data with
  | some (y, r1) =>
    match expectChar '-' r1 with
    | some r2 =>
      match parseNDigits 2 r2 with
      | some (mo, r3) =>
        match expectChar '-' r3 with
        | some r4 =>
          match parseNDigits 2 r4 with
          | some (d, r5) =>
            if 1 ≤ y ∧ 1 ≤ mo ∧ mo ≤ 12 ∧ 1 ≤ d ∧ d ≤ daysInMonth y mo then
              match expectChar 'T' r5 with
              | some r6 =>
                match parseNDigits 2 r6 with
                | some (h, r7) =>
                  match expectChar ':' r7 with
                  | some r8 =>
                    match parseNDigits 2 r8 with
                    | some (mi, r9) =>
                      match expectChar ':' r9 with
                      | some r10 =>
                        match parseNDigits 2 r10 with
                        | some (sec, r11) =>
                          if h ≤ 23 ∧ mi ≤ 59 ∧ sec ≤ 59 then
                            let fr := parseFraction r11
                            match parseOffset fr.2 with
                            | some off => some (isoRank y mo d h mi sec fr.1 off)
                            | none => none
                          else none
                        | none => none
                      | none => none
                    | none => none
                  | none => none
                | none => none
              | none => none
            else none
          | none => none
        | none => none
      | none => none
    | none => none
  | none => none

/-- Rank of `datetime.min.replace(tzinfo=UTC)`, the source's fallback key. -/
def datetimeMinRank : Int := isoRank 1 1 1 0 0 0 0 0

def get_publish_date (v : EnhancedVideo) : Int :=
  match parseIsoRank (replaceZ v.snippet.publishedAt) with
  | some r => r
  | none => datetimeMinRank

/-! ## Sort engine (main.py lines 259-328)

Python's builtin `sorted(key=k, reverse=rev)` is a stable sort: with
`reverse=True` the key comparison is flipped but elements with equal keys
keep their original relative order.  Any stable sort with the same total
preorder produces the same list, so the model uses the structurally
recursive `List.insertionSort`, with the flipped relation for `reverse`.
`str.lower` is modelled on ASCII (`Char.toLower`). -/

def pySorted {α β : Type} [LinearOrder β] (k : α → β) (reverse : Bool) (l : List α) : List α :=
  if reverse then List.insertionSort (fun a b => k b ≤ k a) l
  else List.insertionSort (fun a b => k a ≤ k b) l

def pyLower (s : String) : String :=
  ⟨s.data.map Char.toLower⟩

/-- Key for `sort_by == "duration"` (main.py lines 281-288). -/
def get_duration_seconds (v : EnhancedVideo) : Int :=
  if v.duration = "Unknown" then 0 else duration_to_seconds v.duration

/-- Key for `sort_by == "title"` (main.py lines 294-298); the `KeyError`
fallback to `""` is unreachable with the typed record. -/
def get_title (v : EnhancedVideo) : String :=
  pyLower v.snippet.title

/-- Key for `sort_by == "channel"` (main.py lines 304-312). -/
def get_channel (v : EnhancedVideo) : String :=
  pyLower (v.snippet.videoOwnerChannelTitle.getD v.snippet.channelTitle)

/-- Key for `sort_by == "position"` (main.py lines 318-321). -/
def get_position (v : EnhancedVideo) : Nat :=
  v.snippet.position

/-- `sort_videos_by_criteria` of main.py.  The criterion is a plain string at
runtime (the `SortCriteria` literal type is not enforced), so the final
`else` branch returns the input unchanged for any unknown criterion. -/
def sort_videos_by_criteria (videos : List EnhancedVideo) (sort_by : String)
    (reverse : Bool) : List EnhancedVideo :=
  if videos = [] then videos
  else if sort_by = "upload_date" then pySorted get_publish_date reverse videos
  else if sort_by = "duration" then pySorted get_duration_seconds reverse videos
  else if sort_by = "title" then pySorted get_title reverse videos
  else if sort_by = "channel" then pySorted get_channel reverse videos
  else if sort_by = "position" then pySorted get_position reverse videos
  else videos

/-- What it means for `out` to be the stable sort of `l` under key `k`:
a permutation, sorted ascending (or descending when `reverse`), and
key-equal elements keep their input relative order (the filter at every
fixed key value coincides with the input's). -/
def stableSorted {α β : Type} [LinearOrder β] (k : α → β) (reverse : Bool)
    (l out : List α) : Prop :=
  out.Perm l ∧
  (if reverse then out.Pairwise (fun a b => k b ≤ k a)
   else out.Pairwise (fun a b => k a ≤ k b)) ∧
  ∀ v : β, out.filter (fun x => decide (k x = v)) = l.filter (fun x => decide (k x = v))

/-! ## Duration enricher: `get_video_durations` (main.py lines 218-242)

The remote `videos().list` call is an oracle from the passed id list (the
source joins the ids with `","` into one request) to either a response — a
list of `(id, rawIsoDuration)` pairs — or `none` for an `HttpError`, which
the source catches and turns into `{}`.  The second component of the result
records the id payload of every remote call issued, so that call counts and
truncation are observable. -/

def assocPut {α : Type} : List (String × α) → String → α → List (String × α)
  | [], k, v => [(k, v)]
  | (k', v') :: rest, k, v =>
    if k' = k then (k, v) :: rest else (k', v') :: assocPut rest k v

def assocGet {α : Type} (m : List (String × α)) (k : String) : Option α :=
  (m.find? (fun p => p.1 = k)).map (fun p => p.2)

/-- Python `dict.get(key, default)`. -/
def lookupD (m : List (String × String)) (k d : String) : String :=
  (assocGet m k).getD d

def get_video_durations (remote : List String → Option (List (String × String)))
    (video_ids : List String) : List (String × String) × List (List String) :=
  if video_ids = [] then ([], [])
  else
    match remote video_ids with
    | none => ([], [video_ids])
    | some items =>
      (items.foldl (fun acc it => assocPut acc it.1 (parse_duration it.2)) [], [video_ids])

/-! ## Cache store

Modelled from the spec: the repository's `src/core/cache.py` module
(`get_cached_data` / `save_cached_data`) is not under src/; spec §4.5
describes it as a flat key-value store keyed by `(kind, id)` with kinds as
distinct namespaces (§3 CacheEntry invariant), `put` overwriting and
reporting success.  The two kinds the fetchers use are the two fields;
`save` always succeeds in the model (its boolean is only used for logging in
the source). -/

structure CacheStore where
  videos : List (String × List PlaylistItem)
  videosDurations : List (String × List EnhancedVideo)
deriving DecidableEq, Repr

def emptyStore : CacheStore := ⟨[], []⟩

/-! ## Paginated fetcher: `get_playlist_videos` (youtube_api.py lines 219-328)

Each remote `playlistItems().list` call is a scripted outcome: `Page.err`
(an `HttpError`, which aborts the whole fetch) or `Page.ok items`.  The
"no next cursor" condition is the end of the script, so the loop accumulates
page items in order until the script ends or a page fails.  The pre-count
call and the progress bar affect no data flow and are omitted. -/

inductive Page where
  | err : Page
  | ok (items : List PlaylistItem) : Page
deriving DecidableEq, Repr

def gpvGo : List Page → List PlaylistItem → Option (List PlaylistItem)
  | [], acc => some acc
  | Page.err :: _, _ => none
  | Page.ok items :: rest, acc => gpvGo rest (acc ++ items)

def get_playlist_videos (store : CacheStore) (pages : List Page)
    (playlist_id : String) (use_cache : Bool) :
    Option (List PlaylistItem) × CacheStore :=
  match (if use_cache then assocGet store.videos playlist_id else none) with
  | some cached => (some cached, store)
  | none =>
    match gpvGo pages [] with
    | none => (none, store)
    | some videos =>
      if use_cache && !videos.isEmpty then
        (some videos, { store with videos := assocPut store.videos playlist_id videos })
      else (some videos, store)

/-! ## Enriched fetcher: `get_playlist_videos_with_durations`
(youtube_api.py lines 331-456)

Each page carries the listing outcome and, when the listing succeeded, the
response of the page's `get_video_durations` call (`none` = that secondary
call raised `HttpError`).  The page's items are combined with
`durations.get(video_id, "Unknown")` exactly as in the source. -/

inductive EPage where
  | err : EPage
  | ok (items : List PlaylistItem) (durResp : Option (List (String × String))) : EPage
deriving DecidableEq, Repr

def enrichPage (items : List PlaylistItem)
    (durResp : Option (List (String × String))) : List EnhancedVideo :=
  let ids := items.map (fun v => v.snippet.resourceVideoId)
  let durations := (get_video_durations (fun _ => durResp) ids).1
  items.map (fun v =>
    { id := v.id
      snippet := v.snippet
      video_id := v.snippet.resourceVideoId
      duration := lookupD durations v.snippet.resourceVideoId "Unknown" })

def gpvdGo : List EPage → List EnhancedVideo → Option (List EnhancedVideo)
  | [], acc => some acc
  | EPage.err :: _, _ => none
  | EPage.ok items durResp :: rest, acc => gpvdGo rest (acc ++ enrichPage items durResp)

def get_playlist_videos_with_durations (store : CacheStore) (pages : List EPage)
    (playlist_id : String) (use_cache : Bool) :
    Option (List EnhancedVideo) × CacheStore :=
  match (if use_cache then assocGet store.videosDurations playlist_id else none) with
  | some cached => (some cached, store)
  | none =>
    match gpvdGo pages [] with
    | none => (none, store)
    | some videos =>
      if use_cache && !videos.isEmpty then
        (some videos,
         { store with videosDurations := assocPut store.videosDurations playlist_id videos })
      else (some videos, store)

/-- An item enriched from a page whose secondary duration call failed:
`get_video_durations` caught the `HttpError` and returned the empty
mapping, so `durations.get(video_id, "Unknown")` yields the sentinel. -/
def mkUnknownVideo (v : PlaylistItem) : EnhancedVideo :=
  { id := v.id
    snippet := v.snippet
    video_id := v.snippet.resourceVideoId
    duration := "Unknown" }

/-! ## Sequential insert replay: `add_videos_to_playlist_sequential`
(youtube_api.py lines 83-145, identical in main.py lines 397-457)

`ok i` is the outcome of the `add_video_to_playlist` call for loop index
`i` (the `service`, `playlist_id`, per-item position `start_position + i`
and progress bar do not influence control flow and are absorbed into the
oracle).  On the first failed insert the loop returns immediately with the
failure counted once. -/

def addVideosGo (ok : Nat → Bool) : List String → Nat → Nat → Nat → Nat × Nat
  | [], _, succ, fail => (succ, fail)
  | _ :: rest, i, succ, fail =>
    if ok i then addVideosGo ok rest (i + 1) (succ + 1) fail
    else (succ, fail + 1)

def add_videos_to_playlist_sequential (ok : Nat → Bool) (video_ids : List String) :
    Nat × Nat :=
  if video_ids = [] then (0, 0) else addVideosGo ok video_ids 0 0 0

/-- The loop indices whose insert call is actually issued (the loop body is
entered for index `i` before inspecting `ok i`, and stops after the first
failure). -/
def addVideosAttempts (ok : Nat → Bool) : List String → Nat → List Nat
  | [], _ => []
  | _ :: rest, i => i :: (if ok i then addVideosAttempts ok rest (i + 1) else [])

/-! ## Collection rebuilder: `create_sorted_playlist`
(youtube_api.py lines 459-556)

The environment scripts every collaborator: the source-playlist info call,
the page scripts of the two fetch paths, the cache store, the
`playlists().insert` result and the per-index insert outcomes.  The trace
lists the remote mutations and listings issued (list calls of a fetch phase
are coarsened to a single marker; deletion would appear as
`RemoteOp.deleteOp` and is never issued by the source). -/

inductive RemoteOp where
  | listOp : RemoteOp
  | createOp : RemoteOp
  | insertOp (i : Nat) : RemoteOp
  | deleteOp : RemoteOp
deriving DecidableEq, Repr

structure RebuildEnv where
  infoTitle : Option String
  pagesPlain : List Page
  pagesDur : List EPage
  store : CacheStore
  createdId : Option String
  insertOk : Nat → Bool

/-- The enhanced-record synthesis of the non-duration path (youtube_api.py
lines 497-513): every item is converted with placeholder duration `"0:00"`
(the `KeyError` skip is unreachable with the typed record). -/
def convertPlain (vs : List PlaylistItem) : List EnhancedVideo :=
  vs.map (fun v =>
    { id := v.id
      snippet := v.snippet
      video_id := v.snippet.resourceVideoId
      duration := "0:00" })

/-- The fetch phase of `create_sorted_playlist`: the enriched path for the
`duration` criterion, otherwise the plain path followed by conversion, with
`if regular_videos:` mapping both `None` and `[]` to `None`. -/
def rebuildFetch (env : RebuildEnv) (sort_by : String) (source_playlist_id : String)
    (use_cache : Bool) : Option (List EnhancedVideo) :=
  if sort_by = "duration" then
    (get_playlist_videos_with_durations env.store env.pagesDur source_playlist_id use_cache).1
  else
    match (get_playlist_videos env.store env.pagesPlain source_playlist_id use_cache).1 with
    | some [] => none
    | some (v :: vs) => some (convertPlain (v :: vs))
    | none => none

def create_sorted_playlist (env : RebuildEnv) (source_playlist_id : String)
    (sort_by : String) (reverse : Bool) (use_cache : Bool) :
    Option String × List RemoteOp :=
  match env.infoTitle with
  | none => (none, [RemoteOp.listOp])
  | some _ =>
    match rebuildFetch env sort_by source_playlist_id use_cache with
    | none => (none, [RemoteOp.listOp, RemoteOp.listOp])
    | some [] => (none, [RemoteOp.listOp, RemoteOp.listOp])
    | some (v :: vs) =>
      let sortedVideos := sort_videos_by_criteria (v :: vs) sort_by reverse
      match env.createdId with
      | none => (none, [RemoteOp.listOp, RemoteOp.listOp, RemoteOp.createOp])
      | some newId =>
        let ids := sortedVideos.map (fun x => x.video_id)
        let counts := add_videos_to_playlist_sequential env.insertOk ids
        let tr := [RemoteOp.listOp, RemoteOp.listOp, RemoteOp.createOp]
          ++ (addVideosAttempts env.insertOk ids 0).map RemoteOp.insertOp
        if counts.2 > 0 then (none, tr) else (some newId, tr)

/-! ## Sample concrete inputs used by witnesses and counterexamples -/

def sampleSnippet (i : Nat) : Snippet :=
  { publishedAt := "2023-01-0" ++ toString (i + 1) ++ "T00:00:00Z"
    title := "t" ++ toString i
    channelTitle := "c"
    videoOwnerChannelTitle := none
    position := i
    resourceVideoId := "v" ++ toString i }

def sampleItem (i : Nat) : PlaylistItem :=
  { id := "it" ++ toString i, snippet := sampleSnippet i }

def fiveItems : List PlaylistItem :=
  [sampleItem 0, sampleItem 1, sampleItem 2, sampleItem 3, sampleItem 4]

/-- Rebuild environment of the spec's fail-fast example: five source items,
the insert at zero-based index 2 (the 3rd) fails. -/
def env5 : RebuildEnv :=
  { infoTitle := some "SRC"
    pagesPlain := [Page.ok fiveItems]
    pagesDur := []
    store := emptyStore
    createdId := some "NEW"
    insertOk := fun j => decide (j ≠ 2) }

/-- The plain-path conversion of `sampleItem 0`. -/
def sampleEnhanced0 : EnhancedVideo :=
  { id := "it0", snippet := sampleSnippet 0, video_id := "v0", duration := "0:00" }

/-- `sampleItem 0` enriched when the page's duration call failed. -/
def sampleUnknown0 : EnhancedVideo :=
  { id := "it0", snippet := sampleSnippet 0, video_id := "v0", duration := "Unknown" }

/-- A happy-path rebuild environment: one source item, create and insert
succeed. -/
def envHappy : RebuildEnv :=
  { infoTitle := some "T"
    pagesPlain := [Page.ok [sampleItem 0]]
    pagesDur := []
    store := emptyStore
    createdId := some "NEW"
    insertOk := fun _ => true }

/-! ## Theorems -/

theorem parse_duration_cases (s : String) :
    (durationParseable s = false → parse_duration s = s) ∧
    (durationParseable s = true →
      parse_duration s =
        compactDisplay (durationGroups s).1 (durationGroups s).2.1 (durationGroups s).2.2) := by
  unfold parse_duration durationParseable durationGroups
  split
  · rename_i rest heq
    constructor
    · intro h
      simp at h
    · intro _
      rfl
  · rename_i hne
    constructor
    · intro _
      rfl
    · intro h
      simp at h

/-- C4: `parse_duration` maps every parseable ISO-8601-style token to the
compact display form of its captured groups (hours > 0 gives `H:MM:SS`,
else `M:SS`; in particular `"PT1H2M3S" ↦ "1:02:03"` and `"PT45S" ↦ "0:45"`),
and returns every token the regex cannot match unchanged; it is a total
function, hence never raises. -/
theorem spec_c4 :
    parse_duration "PT1H2M3S" = "1:02:03" ∧
    parse_duration "PT45S" = "0:45" ∧
    (∀ s : String, durationParseable s = false → parse_duration s = s) ∧
    (∀ s : String, durationParseable s = true →
      parse_duration s =
        compactDisplay (durationGroups s).1 (durationGroups s).2.1 (durationGroups s).2.2) :=
  ⟨by decide, by decide,
   fun s => (parse_duration_cases s).1,
   fun s => (parse_duration_cases s).2⟩

theorem spec_c4_witness :
    (durationParseable "hello" = false ∧ parse_duration "hello" = "hello") ∧
    (durationParseable "PT2M5S" = true ∧ parse_duration "PT2M5S" = "2:05") :=
  ⟨⟨by decide, spec_c4.2.2.1 "hello" (by decide)⟩,
   ⟨by decide, by
      have h := spec_c4.2.2.2 "PT2M5S" (by decide)
      simpa using h⟩⟩

/-- C5: the duration enricher does not chunk: an empty input issues no
remote call and returns the empty mapping; any nonempty input issues
exactly one remote call carrying the full id list (never a truncation);
and under the remote contract of spec §6 (`getSecondaryProperties` rejects
more than 50 ids), an input of more than 50 ids therefore yields the empty
mapping from that single failed call. -/
theorem spec_c5 (remote : List String → Option (List (String × String)))
    (ids : List String) :
    (ids = [] → get_video_durations remote ids = ([], [])) ∧
    (ids ≠ [] → (get_video_durations remote ids).2 = [ids]) ∧
    ((∀ xs : List String, 50 < xs.length → remote xs = none) → 50 < ids.length →
      get_video_durations remote ids = ([], [ids])) := by
  refine ⟨?_, ?_, ?_⟩
  · intro h
    simp [get_video_durations, h]
  · intro h
    unfold get_video_durations
    rw [if_neg h]
    cases remote ids <;> rfl
  · intro hremote hlen
    have hne : ids ≠ [] := by
      intro h
      rw [h] at hlen
      simp at hlen
    unfold get_video_durations
    rw [if_neg hne, hremote ids hlen]

theorem spec_c5_witness :
    get_video_durations (fun _ => some [("a", "PT1S")]) [] = ([], []) ∧
    (get_video_durations (fun _ => some [("a", "PT1S")]) ["a", "b"]).2 = [["a", "b"]] ∧
    get_video_durations (fun xs => if 50 < xs.length then none else some [])
        (List.replicate 51 "v") = ([], [List.replicate 51 "v"]) :=
  ⟨(spec_c5 _ []).1 rfl,
   (spec_c5 _ ["a", "b"]).2.1 (by decide),
   (spec_c5 _ (List.replicate 51 "v")).2.2
     (fun xs h => by simp only [if_pos h]) (by decide)⟩

theorem gpvGo_ok_pages (pageItems : List (List PlaylistItem)) (acc : List PlaylistItem) :
    gpvGo (pageItems.map Page.ok) acc = some (acc ++ pageItems.flatten) := by
  induction pageItems generalizing acc with
  | nil => simp [gpvGo]
  | cons p ps ih =>
    simp only [List.map, gpvGo, ih, List.flatten_cons, List.append_assoc]

/-- C6: for every number of pages and of items per page (0, 1 or more),
the paginated fetcher returns exactly the concatenation of the pages' item
lists in the order received; it never reorders items. -/
theorem spec_c6 (store : CacheStore) (pageItems : List (List PlaylistItem))
    (playlist_id : String) :
    (get_playlist_videos store (pageItems.map Page.ok) playlist_id false).1 =
      some pageItems.flatten := by
  unfold get_playlist_videos
  rw [gpvGo_ok_pages]
  simp

theorem addVideosGo_all_ok (ok : Nat → Bool) (ids : List String) (i s f : Nat)
    (h : ∀ j, j < ids.length → ok (i + j) = true) :
    addVideosGo ok ids i s f = (s + ids.length, f) := by
  induction ids generalizing i s with
  | nil => simp [addVideosGo]
  | cons x rest ih =>
    have h0 : ok i = true := by simpa using h 0 (by simp)
    simp only [addVideosGo, h0, if_true]
    rw [ih (i + 1) (s + 1) (fun j hj => by
      have := h (j + 1) (by simpa using Nat.succ_lt_succ hj)
      simpa [Nat.add_assoc, Nat.add_comm 1 j] using this)]
    simp [Nat.add_assoc, Nat.add_comm 1 rest.length]

theorem addVideosGo_first_fail (ok : Nat → Bool) (ids : List String) (i s f k : Nat)
    (hk : k < ids.length) (hfail : ok (i + k) = false)
    (hok : ∀ j, j < k → ok (i + j) = true) :
    addVideosGo ok ids i s f = (s + k, f + 1) := by
  induction ids generalizing i s k with
  | nil => simp at hk
  | cons x rest ih =>
    cases k with
    | zero =>
      have h0 : ok i = false := by simpa using hfail
      simp [addVideosGo, h0]
    | succ k' =>
      have h0 : ok i = true := by simpa using hok 0 (Nat.succ_pos k')
      simp only [addVideosGo, h0, if_true]
      rw [ih (i + 1) (s + 1) k' (by simpa using Nat.lt_of_succ_lt_succ hk)
        (by simpa [Nat.add_assoc, Nat.add_comm 1 k'] using hfail)
        (fun j hj => by
          have := hok (j + 1) (Nat.succ_lt_succ hj)
          simpa [Nat.add_assoc, Nat.add_comm 1 j] using this)]
      simp [Nat.add_assoc, Nat.add_comm 1 k']

theorem addVideosAttempts_le (ok : Nat → Bool) (ids : List String) (i k : Nat)
    (hfail : ok (i + k) = false) (hok : ∀ j, j < k → ok (i + j) = true) :
    ∀ m ∈ addVideosAttempts ok ids i, m ≤ i + k := by
  induction ids generalizing i k with
  | nil => simp [addVideosAttempts]
  | cons x rest ih =>
    intro m hm
    simp only [addVideosAttempts, List.mem_cons] at hm
    rcases hm with hm | hm
    · omega
    · by_cases hi : ok i = true
      · rw [if_pos hi] at hm
        cases k with
        | zero => rw [Nat.add_zero] at hfail; rw [hfail] at hi; exact absurd hi (by simp)
        | succ k' =>
          have := ih (i + 1) k'
            (by simpa [Nat.add_assoc, Nat.add_comm 1 k'] using hfail)
            (fun j hj => by
              have := hok (j + 1) (Nat.succ_lt_succ hj)
              simpa [Nat.add_assoc, Nat.add_comm 1 j] using this)
            m hm
          omega
      · rw [if_neg hi] at hm
        simp at hm

/-- C1: the sequential replay attempts inserts in list order, one remote
call each; if the first failing index is `k` it attempts no index beyond
`k` and returns `(k, 1)`, and if no insert fails it returns
`(length, 0)`.  In particular five items whose 3rd insert fails report
`(2, 1)` and the overall rebuild on such an environment returns failure. -/
theorem spec_c1 (ok : Nat → Bool) (ids : List String) :
    ((∀ j, j < ids.length → ok j = true) →
      add_videos_to_playlist_sequential ok ids = (ids.length, 0)) ∧
    (∀ k, k < ids.length → ok k = false → (∀ j, j < k → ok j = true) →
      add_videos_to_playlist_sequential ok ids = (k, 1) ∧
      ∀ m ∈ addVideosAttempts ok ids 0, m ≤ k) ∧
    add_videos_to_playlist_sequential (fun j => decide (j ≠ 2))
      ["v0", "v1", "v2", "v3", "v4"] = (2, 1) ∧
    (create_sorted_playlist env5 "SRCID" "position" false false).1 = none := by
  refine ⟨?_, ?_, by decide, by decide⟩
  · intro h
    unfold add_videos_to_playlist_sequential
    split
    · rename_i he
      simp [he]
    · rw [addVideosGo_all_ok ok ids 0 0 0 (fun j hj => by simpa using h j hj)]
      simp
  · intro k hk hfail hok
    have hne : ids ≠ [] := by
      intro h
      rw [h] at hk
      simp at hk
    constructor
    · unfold add_videos_to_playlist_sequential
      rw [if_neg hne]
      rw [addVideosGo_first_fail ok ids 0 0 0 k hk (by simpa using hfail)
        (fun j hj => by simpa using hok j hj)]
      simp
    · have := addVideosAttempts_le ok ids 0 k (by simpa using hfail)
        (fun j hj => by simpa using hok j hj)
      simpa using this

theorem spec_c1_witness :
    (add_videos_to_playlist_sequential (fun j => decide (j ≠ 2))
        ["a", "b", "c", "d", "e"] = (2, 1) ∧
      ∀ m ∈ addVideosAttempts (fun j => decide (j ≠ 2)) ["a", "b", "c", "d", "e"] 0,
        m ≤ 2) ∧
    add_videos_to_playlist_sequential (fun _ => true) ["a", "b"] = (2, 0) :=
  ⟨(spec_c1 (fun j => decide (j ≠ 2)) ["a", "b", "c", "d", "e"]).2.1 2 (by simp)
      (by decide) (fun j hj => by simp; omega),
   (spec_c1 (fun _ => true) ["a", "b"]).1 (fun j _ => rfl)⟩

theorem addVideosGo_fail_le (ok : Nat → Bool) (ids : List String) (i s f : Nat) :
    (addVideosGo ok ids i s f).2 ≤ f + 1 := by
  induction ids generalizing i s with
  | nil => simp [addVideosGo]
  | cons x rest ih =>
    simp only [addVideosGo]
    split
    · exact ih (i + 1) (s + 1)
    · simp

theorem addVideosGo_sum_le (ok : Nat → Bool) (ids : List String) (i s f : Nat) :
    (addVideosGo ok ids i s f).1 + (addVideosGo ok ids i s f).2 ≤ s + f + ids.length := by
  induction ids generalizing i s with
  | nil => simp [addVideosGo]
  | cons x rest ih =>
    simp only [addVideosGo]
    split
    · have := ih (i + 1) (s + 1)
      simp only [List.length_cons]
      omega
    · simp only [List.length_cons]
      omega

theorem addVideosGo_counts (ok : Nat → Bool) (ids : List String) (i s f : Nat) :
    ((addVideosGo ok ids i s f).2 = f →
      (addVideosGo ok ids i s f).1 = s + ids.length ∧
      (addVideosAttempts ok ids i).length = ids.length) ∧
    ((addVideosGo ok ids i s f).2 = f + 1 →
      (addVideosGo ok ids i s f).1 + 1 = s + (addVideosAttempts ok ids i).length) := by
  induction ids generalizing i s with
  | nil =>
    simp [addVideosGo, addVideosAttempts]
  | cons x rest ih =>
    simp only [addVideosGo, addVideosAttempts]
    split
    · constructor
      · intro h
        have := (ih (i + 1) (s + 1)).1 h
        simp only [List.length_cons]
        omega
      · intro h
        have := (ih (i + 1) (s + 1)).2 h
        simp only [List.length_cons]
        omega
    · constructor
      · intro h
        omega
      · intro _
        simp

/-- C10: for every input and insert-outcome sequence, the pair
`(successful, failed)` satisfies `failed ≤ 1` and
`successful + failed ≤ length`; a run with the single failure has
`successful` equal to the attempted inserts before it, and a failure-free
run has `successful` equal to the input length. -/
theorem spec_c10 (ok : Nat → Bool) (ids : List String) :
    (add_videos_to_playlist_sequential ok ids).2 ≤ 1 ∧
    (add_videos_to_playlist_sequential ok ids).1 +
      (add_videos_to_playlist_sequential ok ids).2 ≤ ids.length ∧
    ((add_videos_to_playlist_sequential ok ids).2 = 1 →
      (add_videos_to_playlist_sequential ok ids).1 + 1 =
        (addVideosAttempts ok ids 0).length) ∧
    ((add_videos_to_playlist_sequential ok ids).2 = 0 →
      (add_videos_to_playlist_sequential ok ids).1 = ids.length) := by
  unfold add_videos_to_playlist_sequential
  split
  · rename_i he
    simp [he, addVideosAttempts]
  · refine ⟨by simpa using addVideosGo_fail_le ok ids 0 0 0,
      by simpa using addVideosGo_sum_le ok ids 0 0 0, ?_, ?_⟩
    · intro h
      have := (addVideosGo_counts ok ids 0 0 0).2 h
      omega
    · intro h
      have := ((addVideosGo_counts ok ids 0 0 0).1 h).1
      omega

theorem spec_c10_witness :
    (add_videos_to_playlist_sequential (fun j => decide (j ≠ 1)) ["x", "y", "z"]).2 ≤ 1 ∧
    (add_videos_to_playlist_sequential (fun j => decide (j ≠ 1)) ["x", "y", "z"]).1 + 1 =
      (addVideosAttempts (fun j => decide (j ≠ 1)) ["x", "y", "z"] 0).length ∧
    (add_videos_to_playlist_sequential (fun _ => true) ["x"]).1 = ["x"].length :=
  ⟨(spec_c10 (fun j => decide (j ≠ 1)) ["x", "y", "z"]).1,
   (spec_c10 (fun j => decide (j ≠ 1)) ["x", "y", "z"]).2.2.1 (by decide),
   (spec_c10 (fun _ => true) ["x"]).2.2.2 (by decide)⟩

/-- C2: the rebuilder returns the destination collection id exactly when the
destination create call succeeded and the sequential replay had zero failed
inserts; whenever any insert fails it returns failure; and its remote trace
never contains a delete of the partially populated destination. -/
theorem spec_c2 (env : RebuildEnv) (pid sort_by : String) (reverse use_cache : Bool) :
    RemoteOp.deleteOp ∉ (create_sorted_playlist env pid sort_by reverse use_cache).2 ∧
    ∀ newId : String,
      (create_sorted_playlist env pid sort_by reverse use_cache).1 = some newId ↔
        (env.infoTitle.isSome = true ∧
         ∃ v vs, rebuildFetch env sort_by pid use_cache = some (v :: vs) ∧
           env.createdId = some newId ∧
           (add_videos_to_playlist_sequential env.insertOk
             ((sort_videos_by_criteria (v :: vs) sort_by reverse).map
               (fun x => x.video_id))).2 = 0) := by
  unfold create_sorted_playlist
  split
  · rename_i hinfo
    refine ⟨by simp, fun newId => ?_⟩
    simp [hinfo]
  · rename_i title hinfo
    split
    · rename_i hfetch
      refine ⟨by simp, fun newId => ?_⟩
      constructor
      · intro h
        simp at h
      · rintro ⟨-, v, vs, hsome, -⟩
        rw [hfetch] at hsome
        simp at hsome
    · rename_i hfetch
      refine ⟨by simp, fun newId => ?_⟩
      constructor
      · intro h
        simp at h
      · rintro ⟨-, v, vs, hsome, -⟩
        rw [hfetch] at hsome
        simp at hsome
    · rename_i v vs hfetch
      cases hcreate : env.createdId with
      | none =>
        simp only [hcreate]
        refine ⟨by simp, fun newId => ?_⟩
        constructor
        · intro h
          simp at h
        · rintro ⟨-, v', vs', hsome, hcid, -⟩
          simp at hcid
      | some newId0 =>
        simp only [hcreate]
        split
        · rename_i hgt
          refine ⟨by simp [List.mem_append, List.mem_map], fun newId => ?_⟩
          constructor
          · intro h
            simp at h
          · rintro ⟨-, v', vs', hsome, hcid, hzero⟩
            rw [hfetch] at hsome
            have hlist := Option.some_inj.mp hsome
            injection hlist with hv hvs
            subst hv
            subst hvs
            omega
        · rename_i hle
          refine ⟨by simp [List.mem_append, List.mem_map], fun newId => ?_⟩
          constructor
          · intro h
            have hid : newId0 = newId := by simpa using h
            refine ⟨by simp [hinfo], v, vs, hfetch, by simp [hcreate, hid], by omega⟩
          · rintro ⟨-, v', vs', hsome, hcid, hzero⟩
            have hid : newId0 = newId := by simpa using hcid
            simp [hid]

theorem spec_c2_witness :
    RemoteOp.deleteOp ∉ (create_sorted_playlist envHappy "P" "title" false false).2 ∧
    (create_sorted_playlist envHappy "P" "title" false false).1 = some "NEW" :=
  ⟨(spec_c2 envHappy "P" "title" false false).1,
   ((spec_c2 envHappy "P" "title" false false).2 "NEW").mpr
     ⟨by decide, sampleEnhanced0, [], by decide, by decide, by decide⟩⟩

/-- C8: when the source fetch fails or yields zero items, the rebuilder
returns failure without ever issuing the create-collection call, so no
destination collection (in particular no empty one) is created. -/
theorem spec_c8 (env : RebuildEnv) (pid sort_by : String) (reverse use_cache : Bool)
    (h : rebuildFetch env sort_by pid use_cache = none ∨
      rebuildFetch env sort_by pid use_cache = some []) :
    (create_sorted_playlist env pid sort_by reverse use_cache).1 = none ∧
    RemoteOp.createOp ∉ (create_sorted_playlist env pid sort_by reverse use_cache).2 := by
  unfold create_sorted_playlist
  split
  · exact ⟨rfl, by decide⟩
  · split
    · exact ⟨rfl, by decide⟩
    · exact ⟨rfl, by decide⟩
    · rename_i v vs hfetch
      rcases h with h | h <;> rw [hfetch] at h <;> simp at h

theorem spec_c8_witness :
    (create_sorted_playlist env5 "SRCID" "duration" false false).1 = none ∧
    RemoteOp.createOp ∉ (create_sorted_playlist env5 "SRCID" "duration" false false).2 :=
  spec_c8 env5 "SRCID" "duration" false false (Or.inr (by decide))

theorem gpv_cases (store : CacheStore) (pages : List Page) (pid : String) (uc : Bool)
    (h : uc = true → assocGet store.videos pid = none) :
    (gpvGo pages [] = none → get_playlist_videos store pages pid uc = (none, store)) ∧
    (∀ vs, gpvGo pages [] = some vs →
      get_playlist_videos store pages pid uc =
        (some vs,
         if uc = true ∧ vs ≠ [] then
           { store with videos := assocPut store.videos pid vs }
         else store)) := by
  have hcache : (if uc = true then assocGet store.videos pid else none) = none := by
    cases uc
    · rfl
    · simpa using h rfl
  constructor
  · intro hgo
    unfold get_playlist_videos
    rw [hcache, hgo]
  · intro vs hgo
    unfold get_playlist_videos
    rw [hcache, hgo]
    by_cases hc : uc = true ∧ vs ≠ []
    · rw [if_pos hc]
      rcases hc with ⟨h1, h2⟩
      subst h1
      simp [h2]
    · rw [if_neg hc]
      have hbool : (uc && !vs.isEmpty) = false := by
        cases uc
        · rfl
        · have h2 : vs = [] := by
            by_contra hne
            exact hc ⟨rfl, hne⟩
          subst h2
          rfl
      simp [hbool]

theorem gpvd_cases (store : CacheStore) (pages : List EPage) (pid : String) (uc : Bool)
    (h : uc = true → assocGet store.videosDurations pid = none) :
    (gpvdGo pages [] = none →
      get_playlist_videos_with_durations store pages pid uc = (none, store)) ∧
    (∀ vs, gpvdGo pages [] = some vs →
      get_playlist_videos_with_durations store pages pid uc =
        (some vs,
         if uc = true ∧ vs ≠ [] then
           { store with videosDurations := assocPut store.videosDurations pid vs }
         else store)) := by
  have hcache : (if uc = true then assocGet store.videosDurations pid else none) = none := by
    cases uc
    · rfl
    · simpa using h rfl
  constructor
  · intro hgo
    unfold get_playlist_videos_with_durations
    rw [hcache, hgo]
  · intro vs hgo
    unfold get_playlist_videos_with_durations
    rw [hcache, hgo]
    by_cases hc : uc = true ∧ vs ≠ []
    · rw [if_pos hc]
      rcases hc with ⟨h1, h2⟩
      subst h1
      simp [h2]
    · rw [if_neg hc]
      have hbool : (uc && !vs.isEmpty) = false := by
        cases uc
        · rfl
        · have h2 : vs = [] := by
            by_contra hne
            exact hc ⟨rfl, hne⟩
          subst h2
          rfl
      simp [hbool]

/-- C9: on a cache miss, both paginated fetchers write the Cache Store
all-or-nothing: a mid-fetch listing failure returns failure with the store
untouched; a complete successful fetch returns the accumulated list and
writes it — only when caching is enabled and at least one item was fetched —
under that fetcher's kind-specific key for the collection id, leaving the
other kind's entries unchanged. -/
theorem spec_c9 (store : CacheStore) (pagesP : List Page) (pagesE : List EPage)
    (pid : String) (uc : Bool)
    (hP : uc = true → assocGet store.videos pid = none)
    (hE : uc = true → assocGet store.videosDurations pid = none) :
    ((gpvGo pagesP [] = none → get_playlist_videos store pagesP pid uc = (none, store)) ∧
     (∀ vs, gpvGo pagesP [] = some vs →
       get_playlist_videos store pagesP pid uc =
         (some vs,
          if uc = true ∧ vs ≠ [] then
            { store with videos := assocPut store.videos pid vs }
          else store))) ∧
    ((gpvdGo pagesE [] = none →
       get_playlist_videos_with_durations store pagesE pid uc = (none, store)) ∧
     (∀ vs, gpvdGo pagesE [] = some vs →
       get_playlist_videos_with_durations store pagesE pid uc =
         (some vs,
          if uc = true ∧ vs ≠ [] then
            { store with videosDurations := assocPut store.videosDurations pid vs }
          else store))) :=
  ⟨gpv_cases store pagesP pid uc hP, gpvd_cases store pagesE pid uc hE⟩

theorem spec_c9_witness :
    get_playlist_videos emptyStore [Page.ok [sampleItem 0], Page.err] "PL" true =
      (none, emptyStore) ∧
    get_playlist_videos emptyStore [Page.ok [sampleItem 0]] "PL" true =
      (some [sampleItem 0],
       { emptyStore with videos := assocPut emptyStore.videos "PL" [sampleItem 0] }) := by
  have h := spec_c9 emptyStore [Page.ok [sampleItem 0], Page.err] [] "PL" true
    (fun _ => by decide) (fun _ => by decide)
  have h2 := spec_c9 emptyStore [Page.ok [sampleItem 0]] [] "PL" true
    (fun _ => by decide) (fun _ => by decide)
  refine ⟨h.1.1 (by decide), ?_⟩
  have := h2.1.2 [sampleItem 0] (by decide)
  rw [this]
  simp

/-- C3 is refuted by the code: a page whose secondary duration-fetch call
fails with a transport error does NOT abort the enriched fetch — the
`HttpError` is caught inside `get_video_durations` (main.py lines 240-242),
which returns the empty mapping, and the fetch completes successfully with
the sentinel duration `"Unknown"`. -/
theorem spec_c3_counterexample :
    (get_playlist_videos_with_durations emptyStore [EPage.ok [sampleItem 0] none]
        "PL" false).1 = some [sampleUnknown0] ∧
    (get_playlist_videos_with_durations emptyStore [EPage.ok [sampleItem 0] none]
        "PL" false).1 ≠ none := by
  constructor
  · decide
  · decide

theorem enrichPage_none (items : List PlaylistItem) :
    enrichPage items none = items.map mkUnknownVideo := by
  simp only [enrichPage]
  have hdur : (get_video_durations (fun _ => (none : Option (List (String × String))))
      (items.map (fun v => v.snippet.resourceVideoId))).1 = [] := by
    unfold get_video_durations
    split
    · rfl
    · rfl
  rw [hdur]
  rfl

/-- C3 (amended): a transport failure of a listing request is terminal for
the enriched fetch — the whole fetch aborts and returns failure — but a
transport failure of the secondary duration-fetch call is caught inside
`get_video_durations` (which returns the empty mapping), and the fetch
continues with the remaining pages, assigning that page's items the
sentinel duration `"Unknown"`. -/
theorem spec_c3 :
    (∀ (okPages : List (List PlaylistItem × Option (List (String × String))))
       (rest : List EPage) (acc : List EnhancedVideo),
       gpvdGo (okPages.map (fun pr => EPage.ok pr.1 pr.2) ++ EPage.err :: rest) acc =
         none) ∧
    (∀ (store : CacheStore) (pages : List EPage) (pid : String),
       gpvdGo pages [] = none →
       get_playlist_videos_with_durations store pages pid false = (none, store)) ∧
    (∀ (items : List PlaylistItem) (rest : List EPage) (acc : List EnhancedVideo),
       gpvdGo (EPage.ok items none :: rest) acc =
         gpvdGo rest (acc ++ items.map mkUnknownVideo)) := by
  refine ⟨?_, ?_, ?_⟩
  · intro okPages
    induction okPages with
    | nil => intro rest acc; rfl
    | cons p ps ih => intro rest acc; exact ih rest (acc ++ enrichPage p.1 p.2)
  · intro store pages pid hgo
    exact (gpvd_cases store pages pid false (fun h => nomatch h)).1 hgo
  · intro items rest acc
    simp only [gpvdGo, enrichPage_none]

theorem spec_c3_witness :
    gpvdGo [EPage.ok [sampleItem 0] none, EPage.err] [] = none ∧
    get_playlist_videos_with_durations emptyStore [EPage.err] "PL" false =
      (none, emptyStore) ∧
    gpvdGo [EPage.ok [sampleItem 0] none] [] = gpvdGo [] [sampleUnknown0] :=
  ⟨spec_c3.1 [([sampleItem 0], none)] [] [],
   spec_c3.2.1 emptyStore [EPage.err] "PL" rfl,
   by
     have h := spec_c3.2.2 [sampleItem 0] [] []
     rw [h]
     decide⟩

theorem filter_orderedInsert {α : Type} (r : α → α → Prop) [DecidableRel r] (p : α → Bool)
    (a : α) (l : List α) (h : p a = true → ∀ b ∈ l, ¬ r a b → p b = false) :
    (List.orderedInsert r a l).filter p = ((a :: l).filter p) := by
  rw [List.orderedInsert_eq_take_drop, List.filter_append]
  have hsplit : l.filter p =
      ((l.takeWhile fun b => ¬ r a b).filter p) ++
        ((l.dropWhile fun b => ¬ r a b).filter p) := by
    rw [← List.filter_append, List.takeWhile_append_dropWhile]
  by_cases hpa : p a = true
  · have htake : (l.takeWhile fun b => ¬ r a b).filter p = [] := by
      apply List.filter_eq_nil_iff.mpr
      intro b hb
      have hbl : b ∈ l := (List.takeWhile_sublist _).subset hb
      have hq : ¬ r a b := by simpa using List.mem_takeWhile_imp hb
      simp [h hpa b hbl hq]
    rw [htake] at hsplit ⊢
    simp only [List.nil_append] at hsplit ⊢
    rw [List.filter_cons, List.filter_cons]
    simp only [hpa, if_true]
    rw [hsplit]
  · have hpa' : p a = false := by simpa using hpa
    rw [List.filter_cons, List.filter_cons]
    simp only [hpa', Bool.false_eq_true, if_false]
    exact hsplit.symm

theorem filter_insertionSort {α : Type} (r : α → α → Prop) [DecidableRel r] (p : α → Bool)
    (h : ∀ a b, ¬ r a b → p a = true → p b = false) (l : List α) :
    (List.insertionSort r l).filter p = l.filter p := by
  induction l with
  | nil => rfl
  | cons a t ih =>
    simp only [List.insertionSort]
    rw [filter_orderedInsert r p a (List.insertionSort r t)
      (fun hpa b _ hr => h a b hr hpa)]
    rw [List.filter_cons, List.filter_cons, ih]

theorem pySorted_nil {α β : Type} [LinearOrder β] (k : α → β) (rev : Bool) :
    pySorted k rev [] = [] := by
  cases rev <;> rfl

theorem pySorted_stableSorted {α β : Type} [LinearOrder β] (k : α → β) (reverse : Bool)
    (l : List α) : stableSorted k reverse l (pySorted k reverse l) := by
  cases reverse with
  | false =>
    unfold pySorted stableSorted
    simp only [Bool.false_eq_true, if_false]
    refine ⟨List.perm_insertionSort _ l, ?_, ?_⟩
    · haveI : IsTotal α (fun a b => k a ≤ k b) := ⟨fun a b => le_total (k a) (k b)⟩
      haveI : IsTrans α (fun a b => k a ≤ k b) := ⟨fun a b c hab hbc => le_trans hab hbc⟩
      exact List.sorted_insertionSort _ l
    · intro v
      apply filter_insertionSort
      intro a b hr hpa
      have hka : k a = v := by simpa using hpa
      have hlt : k b < k a := not_le.mp hr
      simp only [decide_eq_false_iff_not]
      rw [← hka]
      exact ne_of_lt hlt
  | true =>
    unfold pySorted stableSorted
    simp only [if_true]
    refine ⟨List.perm_insertionSort _ l, ?_, ?_⟩
    · haveI : IsTotal α (fun a b => k b ≤ k a) := ⟨fun a b => (le_total (k b) (k a)).imp id id⟩
      haveI : IsTrans α (fun a b => k b ≤ k a) := ⟨fun a b c hab hbc => le_trans hbc hab⟩
      exact List.sorted_insertionSort _ l
    · intro v
      apply filter_insertionSort
      intro a b hr hpa
      have hka : k a = v := by simpa using hpa
      have hlt : k a < k b := not_le.mp hr
      simp only [decide_eq_false_iff_not]
      rw [← hka]
      exact (ne_of_lt hlt).symm

theorem svc_upload (videos : List EnhancedVideo) (rev : Bool) :
    sort_videos_by_criteria videos "upload_date" rev =
      pySorted get_publish_date rev videos := by
  unfold sort_videos_by_criteria
  by_cases hv : videos = []
  · subst hv
    rw [if_pos rfl, pySorted_nil]
  · rw [if_neg hv, if_pos rfl]

theorem svc_duration (videos : List EnhancedVideo) (rev : Bool) :
    sort_videos_by_criteria videos "duration" rev =
      pySorted get_duration_seconds rev videos := by
  unfold sort_videos_by_criteria
  by_cases hv : videos = []
  · subst hv
    rw [if_pos rfl, pySorted_nil]
  · rw [if_neg hv, if_neg (by decide), if_pos rfl]

theorem svc_title (videos : List EnhancedVideo) (rev : Bool) :
    sort_videos_by_criteria videos "title" rev = pySorted get_title rev videos := by
  unfold sort_videos_by_criteria
  by_cases hv : videos = []
  · subst hv
    rw [if_pos rfl, pySorted_nil]
  · rw [if_neg hv, if_neg (by decide), if_neg (by decide), if_pos rfl]

theorem svc_channel (videos : List EnhancedVideo) (rev : Bool) :
    sort_videos_by_criteria videos "channel" rev = pySorted get_channel rev videos := by
  unfold sort_videos_by_criteria
  by_cases hv : videos = []
  · subst hv
    rw [if_pos rfl, pySorted_nil]
  · rw [if_neg hv, if_neg (by decide), if_neg (by decide), if_neg (by decide), if_pos rfl]

theorem svc_position (videos : List EnhancedVideo) (rev : Bool) :
    sort_videos_by_criteria videos "position" rev = pySorted get_position rev videos := by
  unfold sort_videos_by_criteria
  by_cases hv : videos = []
  · subst hv
    rw [if_pos rfl, pySorted_nil]
  · rw [if_neg hv, if_neg (by decide), if_neg (by decide), if_neg (by decide),
      if_neg (by decide), if_pos rfl]

theorem svc_unknown (videos : List EnhancedVideo) (sort_by : String) (rev : Bool)
    (h : sort_by ∉ ["upload_date", "duration", "title", "channel", "position"]) :
    sort_videos_by_criteria videos sort_by rev = videos := by
  simp only [List.mem_cons, List.mem_singleton] at h
  push_neg at h
  obtain ⟨h1, h2, h3, h4, h5, -⟩ := h
  unfold sort_videos_by_criteria
  by_cases hv : videos = []
  · rw [if_pos hv]
  · rw [if_neg hv, if_neg h1, if_neg h2, if_neg h3, if_neg h4, if_neg h5]

/-- C7: `sort_videos_by_criteria` is a pure stable sort for every criterion:
the output is a permutation of the input, sorted by the criterion's key
(strictly reversed when `reverse` is true), and elements with equal keys
keep their input relative order in both directions; an unknown criterion
returns the input unchanged. -/
theorem spec_c7 (videos : List EnhancedVideo) (sort_by : String) (reverse : Bool) :
    (sort_by = "upload_date" →
      stableSorted get_publish_date reverse videos
        (sort_videos_by_criteria videos sort_by reverse)) ∧
    (sort_by = "duration" →
      stableSorted get_duration_seconds reverse videos
        (sort_videos_by_criteria videos sort_by reverse)) ∧
    (sort_by = "title" →
      stableSorted get_title reverse videos
        (sort_videos_by_criteria videos sort_by reverse)) ∧
    (sort_by = "channel" →
      stableSorted get_channel reverse videos
        (sort_videos_by_criteria videos sort_by reverse)) ∧
    (sort_by = "position" →
      stableSorted get_position reverse videos
        (sort_videos_by_criteria videos sort_by reverse)) ∧
    (sort_by ∉ ["upload_date", "duration", "title", "channel", "position"] →
      sort_videos_by_criteria videos sort_by reverse = videos) := by
  refine ⟨?_, ?_, ?_, ?_, ?_, ?_⟩
  · intro hc
    subst hc
    rw [svc_upload]
    exact pySorted_stableSorted get_publish_date reverse videos
  · intro hc
    subst hc
    rw [svc_duration]
    exact pySorted_stableSorted get_duration_seconds reverse videos
  · intro hc
    subst hc
    rw [svc_title]
    exact pySorted_stableSorted get_title reverse videos
  · intro hc
    subst hc
    rw [svc_channel]
    exact pySorted_stableSorted get_channel reverse videos
  · intro hc
    subst hc
    rw [svc_position]
    exact pySorted_stableSorted get_position reverse videos
  · intro h
    exact svc_unknown videos sort_by reverse h

theorem spec_c7_witness :
    stableSorted get_position false [sampleEnhanced0]
      (sort_videos_by_criteria [sampleEnhanced0] "position" false) ∧
    sort_videos_by_criteria [sampleEnhanced0] "weird" true = [sampleEnhanced0] :=
  ⟨(spec_c7 [sampleEnhanced0] "position" false).2.2.2.2.1 rfl,
   (spec_c7 [sampleEnhanced0] "weird" true).2.2.2.2.2 (by decide)⟩
